import Mathlib

/-!
Verification of the Karbin job-recommendation frontend against its design
specification.  JavaScript functions from the React sources are shallowly
embedded as Lean definitions: JS strings become `String` (or `List Char`
where convenient), JS numbers become `Int`/`Nat`/`Rat`, absent or `null`
fields become `Option`, and a JS function that can throw returns `Except`.
-/

namespace Karbin

/-! ## JavaScript string primitives -/

/-- JS `String.prototype.toLowerCase` restricted to its effect on the
strings that occur here: ASCII letters are lower-cased, all other
characters (in particular the Persian ones) are unchanged. -/
def jsToLower (s : String) : String :=
  String.mk (s.data.map fun c =>
    if 'A' ≤ c ∧ c ≤ 'Z' then Char.ofNat (c.toNat + 32) else c)

/-- Leading-whitespace skipping performed by JS `parseInt`. -/
def skipWs : List Char → List Char
  | c :: rest =>
    if c = ' ' ∨ c = '\t' ∨ c = '\n' ∨ c = '\r' then skipWs rest else c :: rest
  | [] => []

/-- Decimal digits. -/
def isDigit (c : Char) : Bool := '0' ≤ c ∧ c ≤ '9'

/-- JS `parseInt(s, 10)`: skip leading whitespace, read an optional sign,
then the longest prefix of decimal digits; `none` models `NaN`. -/
def parseInt10 (s : String) : Option Int :=
  let cs := skipWs s.data
  let signAndRest : Int × List Char :=
    match cs with
    | '-' :: r => (-1, r)
    | '+' :: r => (1, r)
    | r => (1, r)
  let ds := signAndRest.2.takeWhile isDigit
  if ds = [] then none
  else some (signAndRest.1 *
    (ds.foldl (fun a c => a * 10 + (c.toNat - 48)) 0 : Nat))

/-- Insert `,` after every group of three characters, working on the
reversed digit list. -/
def group3r : List Char → List Char
  | d1 :: d2 :: d3 :: d4 :: rest => d1 :: d2 :: d3 :: ',' :: group3r (d4 :: rest)
  | l => l

/-- JS `new Intl.NumberFormat('en-US').format(n)` for an integer: decimal
digits grouped in threes by commas. -/
def formatThousands (n : Int) : String :=
  let ds := (toString n.natAbs).data
  (if n < 0 then "-" else "") ++ String.mk ((group3r ds.reverse).reverse)

/-- JS `Array.prototype.join(sep)`. -/
def jsJoin (sep : String) : List String → String
  | [] => ""
  | [a] => a
  | a :: rest => a ++ sep ++ jsJoin sep rest

/-! ## `formatSalary` (src/frontend/src/components/JobListItem.js lines 5–21,
identical copy in RecommendedJobListItem.js lines 6–18) -/

/-- The JS values the `salary` argument can take: a number, a string, or an
absent value (`null`/`undefined`). -/
inductive SalaryVal where
  | num (n : Int)
  | str (s : String)
  | nullv
  | undef
deriving DecidableEq

/-- JS truthiness test `!salary` (negated): `0`, `""`, `null`, `undefined`
are falsy. -/
def falsy : SalaryVal → Bool
  | .num n => n = 0
  | .str s => s = ""
  | .nullv => true
  | .undef => true

/-- Embedding of `contract || 'تمام وقت'`: the default kicks in for a missing or empty
contract string. -/
def contractText (contract : Option String) : String :=
  match contract with
  | some s => if s = "" then "تمام وقت" else s
  | none => "تمام وقت"

def negotiableText (ct : String) : String :=
  "قرارداد " ++ ct ++ " (حقوق توافقی)"

def byLawText (ct : String) : String :=
  "قرارداد " ++ ct ++ " (طبق قانون کار)"

def salaryFromText (ct : String) (n : Int) : String :=
  "قرارداد " ++ ct ++ " (حقوق از " ++ formatThousands n ++ " تومان)"

/-- Embedding of `formatSalary(salary, contract)`.  The JS body first tests
`!salary || salary.toLowerCase() === 'توافقی'`; when `salary` is a truthy
value with no `toLowerCase` method (a non-zero number), that member access
throws a `TypeError`, modelled by `Except.error`.  The `try` block around
`parseInt` never actually throws, so string inputs always succeed. -/
def formatSalary (salary : SalaryVal) (contract : Option String) :
    Except Unit String :=
  let ct := contractText contract
  if falsy salary then Except.ok (negotiableText ct)
  else
    match salary with
    | .str s =>
      if jsToLower s = "توافقی" then Except.ok (negotiableText ct)
      else if jsToLower s = "قانون کار" then Except.ok (byLawText ct)
      else
        match parseInt10 s with
        | none => Except.ok (negotiableText ct)
        | some n => Except.ok (salaryFromText ct n)
    | _ => Except.error ()

/-! ## `generateReasonText`
(src/frontend/src/components/RecommendedJobListItem.js lines 36–60) -/

/-- Embedding of `job.reason.details`: only the `recency_score` field is consulted.
An absent field is `none`; a present JS number is a `Rat`. -/
structure ReasonDetails where
  recency_score : Option Rat
deriving DecidableEq

/-- Embedding of `job.reason`: the structured explanation payload. -/
structure Reason where
  matched_skills : Option (List String)
  details : Option ReasonDetails
deriving DecidableEq

/-- The slice of a recommended-job record that `generateReasonText` reads. -/
structure Job where
  reason : Option Reason
deriving DecidableEq

def emptyDetails : ReasonDetails := ⟨none⟩

def emptyReason : Reason := ⟨none, none⟩

/-- Reading of `job.reason || {}` then `reasonData.matched_skills || []`. -/
def matchedSkillsOf (job : Job) : List String :=
  (job.reason.getD emptyReason).matched_skills.getD []

/-- Reading of `job.reason || {}` then `reasonData.details || {}` then the `recency_score` field. -/
def recencyScoreOf (job : Job) : Option Rat :=
  ((job.reason.getD emptyReason).details.getD emptyDetails).recency_score

/-- Part 2 of the reason: `if (details.recency_score && details.recency_score > 0.9)`
pushes the "recently posted" highlight.  A missing field and the number `0`
are falsy. -/
def recencyTag (job : Job) : List String :=
  match recencyScoreOf job with
  | some q => if q ≠ 0 ∧ (9 : Rat) / 10 < q then ["اخیراً منتشر شده"] else []
  | none => []

/-- The `reasonParts` array built by `generateReasonText`. -/
def generateReasonParts (job : Job) : List String :=
  (if (matchedSkillsOf job).length > 0 then
     ["متناسب با مهارت‌ها: " ++ jsJoin "، " (matchedSkillsOf job)]
   else []) ++ recencyTag job

/-- Embedding of `generateReasonText()`: join the parts with `' | '`, or fall back to the
default sentence when no part applies. -/
def generateReasonText (job : Job) : String :=
  if (generateReasonParts job).length = 0 then "شباهت بالا با پروفایل شما"
  else jsJoin " | " (generateReasonParts job)

/-! ## `renderContent`
(src/frontend/src/pages/RecommendedJobsPage.js; first revision lines 41–60,
paginated revision lines 137–169) -/

inductive RenderResult (α : Type) where
  | loadingMsg
  | errorMsg (e : String)
  | noResults
  | jobList (jobs : List α)
deriving DecidableEq

/-- The first revision tests `recommendations.length === <strong>0</strong>`;
the right-hand side parses as a JSX element, and JS strict equality between
a number and an object is `false` whatever the number is. -/
def jsxStrictEqNum (_n : Nat) : Bool := false

/-- Embedding of `renderContent` from the first revision (lines 41–60). -/
def renderContent {α : Type} (loading : Bool) (error : String) (recs : List α) :
    RenderResult α :=
  if loading then RenderResult.loadingMsg
  else if error ≠ "" then RenderResult.errorMsg error
  else if jsxStrictEqNum recs.length then RenderResult.noResults
  else RenderResult.jobList recs

/-! ## Pagination (paginated revision of RecommendedJobsPage.js, lines 82–135) -/

def JOBS_PER_PAGE : Nat := 5

/-- Embedding of `Math.ceil(allRecommendations.length / JOBS_PER_PAGE)`. -/
def totalPages {α : Type} (recs : List α) : Nat :=
  (recs.length + (JOBS_PER_PAGE - 1)) / JOBS_PER_PAGE

/-- Embedding of `allRecommendations.slice(startIndex, endIndex)` with
`startIndex = (currentPage - 1) * JOBS_PER_PAGE` and
`endIndex = startIndex + JOBS_PER_PAGE`. -/
def currentJobs {α : Type} (recs : List α) (currentPage : Nat) : List α :=
  (recs.drop ((currentPage - 1) * JOBS_PER_PAGE)).take JOBS_PER_PAGE

/-- The two pagination buttons. -/
inductive PageEvent where
  | next
  | prev
deriving DecidableEq

/-- Embedding of `handleNextPage` / `handlePrevPage`: guarded increment / decrement of
`currentPage`. -/
def pageStep {α : Type} (recs : List α) (p : Nat) : PageEvent → Nat
  | PageEvent.next => if p < totalPages recs then p + 1 else p
  | PageEvent.prev => if p > 1 then p - 1 else p

/-- Embedding of `renderContent` from the paginated revision (lines 137–169); its empty
check is the plain `allRecommendations.length === 0`. -/
def renderContentPaginated {α : Type} (loading : Bool) (error : String)
    (allRecs : List α) (currentPage : Nat) : RenderResult α :=
  if loading then RenderResult.loadingMsg
  else if error ≠ "" then RenderResult.errorMsg error
  else if allRecs.length = 0 then RenderResult.noResults
  else RenderResult.jobList (currentJobs allRecs currentPage)

/-! ## ProfilePage.js -/

/-- Embedding of `EXPERIENCE_LEVELS` (ProfilePage.js lines 16–21). -/
structure ExperienceLevel where
  value : Nat
  label : String
deriving DecidableEq

def EXPERIENCE_LEVELS : List ExperienceLevel :=
  [⟨0, "کمتر از یک سال"⟩,
   ⟨1, "یک تا سه سال"⟩,
   ⟨3, "سه تا شش سال"⟩,
   ⟨6, "بیش از شش سال"⟩]

/-- The spec's ordinal experience bands, in order (§3):
none `<1y`, `1–3y`, `3–6y`, `6y+`. -/
inductive SpecExperienceBand where
  | lessThanOneYear
  | oneToThreeYears
  | threeToSixYears
  | sixYearsPlus
deriving DecidableEq

def specBandOrder : List SpecExperienceBand :=
  [SpecExperienceBand.lessThanOneYear, SpecExperienceBand.oneToThreeYears,
   SpecExperienceBand.threeToSixYears, SpecExperienceBand.sixYearsPlus]

/-- The Persian form label whose meaning is each spec band. -/
def bandLabel : SpecExperienceBand → String
  | SpecExperienceBand.lessThanOneYear => "کمتر از یک سال"
  | SpecExperienceBand.oneToThreeYears => "یک تا سه سال"
  | SpecExperienceBand.threeToSixYears => "سه تا شش سال"
  | SpecExperienceBand.sixYearsPlus => "بیش از شش سال"

/-- Embedding of `handleProvinceSelect` (ProfilePage.js lines 97–106): toggle membership
of `province` in `preferred_provinces`, removing via
`filter(p => p !== province)` and adding via spread-append. -/
def handleProvinceSelect (province : String) (current : List String) :
    List String :=
  if province ∈ current then current.filter (fun p => p ≠ province)
  else current ++ [province]

/-- Embedding of `profile.preferred_provinces.join(',')` (handleSubmit, line 145);
strings are modelled as `List Char`. -/
def submitProvinces (l : List (List Char)) : List Char :=
  [','].intercalate l

/-- Embedding of `data.preferred_provinces.split(',').filter(p => p)` (fetchProfile,
line 70): split on commas, drop the falsy (empty) pieces. -/
def fetchProvinces (s : List Char) : List (List Char) :=
  (s.splitOn ',').filter (fun p => p ≠ [])

/-! ## Candidate Sieve and Bi-Encoder Retriever (backend) -/

/-- Modelled from the spec: the profile attributes consulted by the
Candidate Sieve (§4.4).  The backend engine itself is not under `src/`
(only the frontend is), so the structure follows §3's UserProfile. -/
structure SpecProfile where
  preferred_categories : List Nat
  preferred_provinces : List String
  experience : Nat
  skills : List String
deriving DecidableEq

/-- Modelled from the spec: the job attributes consulted by the Candidate
Sieve (§4.4), following §3's JobPosting. -/
structure SpecJob where
  id : Nat
  category : Nat
  province : String
  min_experience : Nat
  skills : List String
deriving DecidableEq

/-- Modelled from the spec: category filter of §4.4 — "category matches one
of the profile's declared preferred categories, or no category preference
is set (pass-through)". -/
def categoryOk (p : SpecProfile) (j : SpecJob) : Bool :=
  p.preferred_categories = [] ∨ j.category ∈ p.preferred_categories

/-- Modelled from the spec: province filter of §4.4. -/
def provinceOk (p : SpecProfile) (j : SpecJob) : Bool :=
  p.preferred_provinces = [] ∨ j.province ∈ p.preferred_provinces

/-- Modelled from the spec: experience filter of §4.4 — "job's declared
minimum experience requirement ≤ profile's experience band". -/
def experienceOk (p : SpecProfile) (j : SpecJob) : Bool :=
  j.min_experience ≤ p.experience

/-- Modelled from the spec: skill-overlap filter of §4.4 with the default
minimum of 1 when the profile declares any skills. -/
def skillsOk (p : SpecProfile) (j : SpecJob) : Bool :=
  p.skills = [] ∨ 1 ≤ (j.skills.filter (fun s => s ∈ p.skills)).length

/-- Modelled from the spec: one layer of the Sieve, with switches telling
which of the three relaxable filters are still active. -/
def sieveFilter (useSkill useProv useCat : Bool) (p : SpecProfile)
    (corpus : List SpecJob) : List SpecJob :=
  corpus.filter fun j =>
    experienceOk p j && (!useSkill || skillsOk p j) &&
    (!useProv || provinceOk p j) && (!useCat || categoryOk p j)

/-- Modelled from the spec: the Candidate Sieve of §4.4 with its relaxation
ladder (skill overlap → province → category) applied until a non-empty set
is produced or all relaxable filters are removed. -/
def sieve (p : SpecProfile) (corpus : List SpecJob) : List SpecJob :=
  if sieveFilter true true true p corpus ≠ [] then
    sieveFilter true true true p corpus
  else if sieveFilter false true true p corpus ≠ [] then
    sieveFilter false true true p corpus
  else if sieveFilter false false true p corpus ≠ [] then
    sieveFilter false false true p corpus
  else sieveFilter false false false p corpus

/-- Modelled from the spec: the Bi-Encoder Retriever's ranking order (§4.5)
— descending dense similarity, ties broken by job identifier ascending. -/
def retrieverLe (sim : SpecJob → Rat) (a b : SpecJob) : Bool :=
  sim b < sim a ∨ (sim a = sim b ∧ a.id ≤ b.id)

/-- Insertion into a sorted list. -/
def insertLe {α : Type} (le : α → α → Bool) (x : α) : List α → List α
  | [] => [x]
  | y :: ys => if le x y then x :: y :: ys else y :: insertLe le x ys

/-- Insertion sort — a deterministic stand-in for the ranking step. -/
def isort {α : Type} (le : α → α → Bool) : List α → List α
  | [] => []
  | x :: xs => insertLe le x (isort le xs)

/-- Modelled from the spec: the Bi-Encoder Retriever (§4.5) — rank the
sieved pool by similarity (ties by id) and keep the top 50; a sieved set
smaller than 50 is returned whole.  The dense-embedding similarity is an
injected capability (§9), here a parameter. -/
def retrieve (sim : SpecJob → Rat) (sieved : List SpecJob) : List SpecJob :=
  (isort (retrieverLe sim) sieved).take 50

/-! ## Concrete example records used by the witnesses -/

def jobSkillsEx : Job := ⟨some ⟨some ["python"], none⟩⟩

def exProfile : SpecProfile := ⟨[], [], 1, ["python"]⟩

def exCorpus : List SpecJob :=
  [⟨1, 0, "تهران", 0, ["python", "flask"]⟩,
   ⟨2, 0, "تهران", 6, ["java"]⟩]

def exSim : SpecJob → Rat := fun _ => 0

/-! ## Theorems -/

theorem insertLe_perm {α : Type} (le : α → α → Bool) (x : α) (l : List α) :
    (insertLe le x l).Perm (x :: l) := by
  induction l with
  | nil => exact List.Perm.refl _
  | cons y ys ih =>
    simp only [insertLe]
    split
    · exact List.Perm.refl _
    · exact (ih.cons y).trans (List.Perm.swap x y ys)

theorem isort_perm {α : Type} (le : α → α → Bool) (l : List α) :
    (isort le l).Perm l := by
  induction l with
  | nil => exact List.Perm.refl _
  | cons x xs ih =>
    exact (insertLe_perm le x (isort le xs)).trans (ih.cons x)

/-- Claim C8: the profile form offers exactly four experience levels; their
numeric values are 0, 1, 3, 6, strictly increasing, and their labels
correspond one-to-one, in order, to the spec's four ordinal bands. -/
theorem experience_levels_match_spec :
    EXPERIENCE_LEVELS.map ExperienceLevel.value = [0, 1, 3, 6] ∧
    List.Chain' (fun a b => a < b) (EXPERIENCE_LEVELS.map ExperienceLevel.value) ∧
    EXPERIENCE_LEVELS.length = specBandOrder.length ∧
    EXPERIENCE_LEVELS.map ExperienceLevel.label = specBandOrder.map bandLabel := by
  refine ⟨rfl, ?_, rfl, rfl⟩
  show List.Chain' (fun a b => a < b) [0, 1, 3, 6]
  norm_num [List.chain'_cons, List.chain'_singleton]

/-- Claim C5: on a successful fetch returning the empty list, the first-revision
`renderContent` does NOT take the no-results branch — its emptiness test
compares a number with a JSX element and is always false — so the empty
list is rendered through the job-list branch; the paginated revision of
the same page takes the no-results branch as the spec intends. -/
theorem empty_recommendations_render_divergence :
    renderContent false "" ([] : List Job) = RenderResult.jobList [] ∧
    renderContent false "" ([] : List Job) ≠ RenderResult.noResults ∧
    renderContentPaginated false "" ([] : List Job) 1 = RenderResult.noResults := by
  refine ⟨rfl, ?_, rfl⟩
  intro h
  exact RenderResult.noConfusion h

/-- Claim C2 counterexample: a truthy number-typed salary makes `formatSalary`
throw a `TypeError` at `salary.toLowerCase()`, contradicting the claim
that every numeric salary is formatted without throwing. -/
theorem formatSalary_throws_on_number :
    formatSalary (SalaryVal.num 1000000) none = Except.error () := rfl

/-- Claim C2 amended: for every string-typed salary and every falsy salary value
`formatSalary` succeeds and maps sentinels and unparsable strings to the
negotiable/by-law texts and numeric strings to a thousands-formatted
salary text; only a truthy number-typed salary throws. -/
theorem formatSalary_safe_on_strings (s : String) (c : Option String) :
    (formatSalary (SalaryVal.str s) c).isOk = true ∧
    (∀ v : SalaryVal, falsy v = true →
      formatSalary v c = Except.ok (negotiableText (contractText c))) ∧
    (s ≠ "" → jsToLower s = "توافقی" →
      formatSalary (SalaryVal.str s) c = Except.ok (negotiableText (contractText c))) ∧
    (s ≠ "" → jsToLower s = "قانون کار" →
      formatSalary (SalaryVal.str s) c = Except.ok (byLawText (contractText c))) ∧
    (s ≠ "" → jsToLower s ≠ "توافقی" → jsToLower s ≠ "قانون کار" →
      parseInt10 s = none →
      formatSalary (SalaryVal.str s) c = Except.ok (negotiableText (contractText c))) ∧
    (∀ n : Int, s ≠ "" → jsToLower s ≠ "توافقی" → jsToLower s ≠ "قانون کار" →
      parseInt10 s = some n →
      formatSalary (SalaryVal.str s) c = Except.ok (salaryFromText (contractText c) n)) := by
  refine ⟨?_, ?_, ?_, ?_, ?_, ?_⟩
  · unfold formatSalary
    dsimp only
    split
    · rfl
    · split
      · rfl
      · split
        · rfl
        · split <;> rfl
  · intro v hv
    unfold formatSalary
    simp [hv]
  · intro hne hlow
    unfold formatSalary
    simp [falsy, hne, hlow]
  · intro hne hlow
    have hlow2 : jsToLower s ≠ "توافقی" := by
      rw [hlow]; decide
    unfold formatSalary
    simp [falsy, hne, hlow, hlow2]
  · intro hne h1 h2 hp
    unfold formatSalary
    simp [falsy, hne, h1, h2, hp]
  · intro n hne h1 h2 hp
    unfold formatSalary
    simp [falsy, hne, h1, h2, hp]

theorem formatSalary_safe_on_strings_witness :
    formatSalary (SalaryVal.str "1234567") none =
      Except.ok "قرارداد تمام وقت (حقوق از 1,234,567 تومان)" := by
  have h := (formatSalary_safe_on_strings "1234567" none).2.2.2.2.2 1234567
    (by decide) (by decide) (by decide) rfl
  exact h.trans rfl

/-- Claim C10 counterexample: on a list that already contains the province twice,
toggling twice does not restore the original list even up to order — it
ends with a single copy. -/
theorem handleProvinceSelect_not_involutive :
    ¬ (handleProvinceSelect "تهران"
        (handleProvinceSelect "تهران" ["تهران", "تهران"])).Perm
      ["تهران", "تهران"] := by
  intro h
  have hl := h.length_eq
  rw [show handleProvinceSelect "تهران"
      (handleProvinceSelect "تهران" ["تهران", "تهران"]) = ["تهران"] from rfl] at hl
  simp at hl

/-- Claim C10 amended: on a duplicate-free list the handler is a toggle — applying
it twice with the same province restores the original list up to order, and
it preserves freedom from duplicates. -/
theorem handleProvinceSelect_toggle (province : String) (l : List String)
    (h : l.Nodup) :
    (handleProvinceSelect province (handleProvinceSelect province l)).Perm l ∧
    (handleProvinceSelect province l).Nodup := by
  by_cases hm : province ∈ l
  · have h1 : handleProvinceSelect province l = l.filter (fun p => p ≠ province) := by
      simp [handleProvinceSelect, hm]
    have hnot : province ∉ l.filter (fun p => p ≠ province) := by simp
    have h2 : handleProvinceSelect province (l.filter (fun p => p ≠ province)) =
        l.filter (fun p => p ≠ province) ++ [province] := by
      simp [handleProvinceSelect, hnot]
    have herase : l.filter (fun p => p ≠ province) = l.erase province := by
      rw [List.Nodup.erase_eq_filter h]
      apply List.filter_congr
      intro x _
      by_cases hx : x = province <;> simp [hx]
    constructor
    · rw [h1, h2]
      refine (List.perm_append_singleton _ _).trans ?_
      rw [herase]
      exact (List.perm_cons_erase hm).symm
    · rw [h1]
      exact h.filter _
  · have h1 : handleProvinceSelect province l = l ++ [province] := by
      simp [handleProvinceSelect, hm]
    have hm2 : province ∈ l ++ [province] := by simp
    have h2 : handleProvinceSelect province (l ++ [province]) = l := by
      simp only [handleProvinceSelect, hm2, if_pos, List.filter_append]
      simp
      intro a ha he
      exact hm (he ▸ ha)
    constructor
    · rw [h1, h2]
    · rw [h1]
      simp [List.nodup_append, h, hm]

theorem handleProvinceSelect_toggle_witness :
    (handleProvinceSelect "تهران"
      (handleProvinceSelect "تهران" ["اصفهان"])).Perm ["اصفهان"] ∧
    (handleProvinceSelect "تهران" ["اصفهان"]).Nodup :=
  handleProvinceSelect_toggle "تهران" ["اصفهان"] (by decide)

theorem jsJoin_length_ge (sep a : String) (rest : List String) :
    a.length ≤ (jsJoin sep (a :: rest)).length := by
  cases rest with
  | nil => exact le_refl _
  | cons b bs =>
    show a.length ≤ (a ++ sep ++ jsJoin sep (b :: bs)).length
    rw [String.length_append, String.length_append]
    omega

theorem skillsPart_ne_highlight (ms : List String) :
    "متناسب با مهارت‌ها: " ++ jsJoin "، " ms ≠ "اخیراً منتشر شده" := by
  intro h
  have hl := congrArg String.length h
  rw [String.length_append] at hl
  have h20 : ("متناسب با مهارت‌ها: " : String).length = 20 := by decide
  have h16 : ("اخیراً منتشر شده" : String).length = 16 := by decide
  omega

/-- Claim C1: the reason parts contain the recently-posted highlight exactly when
`reason.details.recency_score` is present, truthy, and above 0.9. -/
theorem recency_highlight_iff (job : Job) :
    "اخیراً منتشر شده" ∈ generateReasonParts job ↔
      ∃ q, recencyScoreOf job = some q ∧ q ≠ 0 ∧ (9 : Rat) / 10 < q := by
  have hnotskills : "اخیراً منتشر شده" ∉
      (if (matchedSkillsOf job).length > 0 then
        ["متناسب با مهارت‌ها: " ++ jsJoin "، " (matchedSkillsOf job)]
       else []) := by
    split
    · simp only [List.mem_singleton]
      intro h
      exact skillsPart_ne_highlight (matchedSkillsOf job) h.symm
    · simp
  constructor
  · intro h
    rcases List.mem_append.mp h with h1 | h2
    · exact absurd h1 hnotskills
    · unfold recencyTag at h2
      cases hq : recencyScoreOf job with
      | none => rw [hq] at h2; simp at h2
      | some q =>
        rw [hq] at h2
        have h2' : "اخیراً منتشر شده" ∈
            (if q ≠ 0 ∧ (9 : Rat) / 10 < q then
              (["اخیراً منتشر شده"] : List String) else []) := h2
        by_cases hc : q ≠ 0 ∧ (9 : Rat) / 10 < q
        · exact ⟨q, rfl, hc⟩
        · rw [if_neg hc] at h2'
          simp at h2'
  · rintro ⟨q, hq, hc⟩
    apply List.mem_append.mpr
    right
    unfold recencyTag
    rw [hq]
    show "اخیراً منتشر شده" ∈
      (if q ≠ 0 ∧ (9 : Rat) / 10 < q then
        (["اخیراً منتشر شده"] : List String) else [])
    rw [if_pos hc]
    simp

/-- Claim C3: a non-empty matched-skills list is rendered as the matched-skills
prefix followed by exactly those skills joined by the Persian comma, and a
job with no matched skills and no high recency score gets the default
sentence. -/
theorem reason_text_matched_skills (job : Job) :
    (matchedSkillsOf job ≠ [] →
      generateReasonText job =
        jsJoin " | "
          (("متناسب با مهارت‌ها: " ++ jsJoin "، " (matchedSkillsOf job)) ::
            recencyTag job)) ∧
    (matchedSkillsOf job = [] →
      (∀ q : Rat, recencyScoreOf job = some q → q = 0 ∨ q ≤ 9 / 10) →
      generateReasonText job = "شباهت بالا با پروفایل شما") := by
  constructor
  · intro hne
    have hlen : (matchedSkillsOf job).length > 0 := List.length_pos.mpr hne
    have hparts : generateReasonParts job =
        ("متناسب با مهارت‌ها: " ++ jsJoin "، " (matchedSkillsOf job)) ::
          recencyTag job := by
      unfold generateReasonParts
      rw [if_pos hlen]
      rfl
    unfold generateReasonText
    rw [hparts]
    rw [if_neg (by simp)]
  · intro hempty hlow
    have htag : recencyTag job = [] := by
      unfold recencyTag
      cases hq : recencyScoreOf job with
      | none => rfl
      | some q =>
        have := hlow q hq
        show (if q ≠ 0 ∧ (9 : Rat) / 10 < q then
          (["اخیراً منتشر شده"] : List String) else []) = []
        rw [if_neg]
        push_neg
        intro h0
        rcases this with h | h
        · exact absurd h h0
        · exact h
    have hparts : generateReasonParts job = [] := by
      unfold generateReasonParts
      rw [hempty]
      simp [htag]
    unfold generateReasonText
    rw [hparts]
    rfl

theorem reason_text_matched_skills_witness :
    generateReasonText jobSkillsEx = "متناسب با مهارت‌ها: python" := by
  have h := (reason_text_matched_skills jobSkillsEx).1 (by decide)
  exact h.trans rfl

theorem mem_generateReasonParts_ne_empty (job : Job) :
    ∀ x ∈ generateReasonParts job, x ≠ "" := by
  intro x hx
  unfold generateReasonParts at hx
  rcases List.mem_append.mp hx with h | h
  · split at h
    · simp only [List.mem_singleton] at h
      subst h
      intro he
      have hl := congrArg String.length he
      rw [String.length_append] at hl
      have h20 : ("متناسب با مهارت‌ها: " : String).length = 20 := by decide
      have h0 : ("" : String).length = 0 := by decide
      omega
    · simp at h
  · unfold recencyTag at h
    cases hq : recencyScoreOf job with
    | none => rw [hq] at h; simp at h
    | some q =>
      rw [hq] at h
      have h' : x ∈ (if q ≠ 0 ∧ (9 : Rat) / 10 < q then
          (["اخیراً منتشر شده"] : List String) else []) := h
      split at h'
      · simp only [List.mem_singleton] at h'
        subst h'
        decide
      · simp at h'

/-- Claim C4: `generateReasonText` is total — every job record, including those
with a missing `reason`, `matched_skills` or `details`, yields a non-empty
string, and a wholly missing `reason` yields the default sentence. -/
theorem generateReasonText_total (job : Job) :
    generateReasonText job ≠ "" ∧
    (job.reason = none → generateReasonText job = "شباهت بالا با پروفایل شما") := by
  constructor
  · unfold generateReasonText
    split
    · decide
    · rename_i hlen
      cases hp : generateReasonParts job with
      | nil => rw [hp] at hlen; simp at hlen
      | cons a rest =>
        have ha : a ≠ "" :=
          mem_generateReasonParts_ne_empty job a (hp ▸ List.mem_cons_self a rest)
        have hlen2 : 0 < a.length := by
          rcases a with ⟨d⟩
          cases d with
          | nil => exact absurd rfl ha
          | cons c cs => simp
        have hge := jsJoin_length_ge " | " a rest
        intro he
        have := congrArg String.length he
        have h0 : ("" : String).length = 0 := by decide
        omega
  · intro hnone
    have h1 : matchedSkillsOf job = [] := by
      unfold matchedSkillsOf
      rw [hnone]
      rfl
    have h2 : recencyTag job = [] := by
      unfold recencyTag recencyScoreOf
      rw [hnone]
      rfl
    unfold generateReasonText
    rw [show generateReasonParts job = [] by
      unfold generateReasonParts
      rw [h1, h2]
      simp]
    rfl

theorem generateReasonText_total_witness :
    generateReasonText (⟨none⟩ : Job) = "شباهت بالا با پروفایل شما" :=
  (generateReasonText_total ⟨none⟩).2 rfl

/-- Claim C6: joining the preferred provinces with a comma on submit and then
splitting on commas and dropping empty pieces on fetch restores any list of
distinct, non-empty, comma-free province names (the empty list included). -/
theorem preferred_provinces_roundtrip (l : List (List Char))
    (hne : ∀ s ∈ l, s ≠ []) (hcomma : ∀ s ∈ l, ',' ∉ s) (hnd : l.Nodup) :
    fetchProvinces (submitProvinces l) = l := by
  unfold fetchProvinces submitProvinces
  cases l with
  | nil => rfl
  | cons a as =>
    rw [List.splitOn_intercalate _ ',' hcomma (by simp)]
    rw [List.filter_eq_self.mpr]
    intro x hx
    simpa using hne x hx

theorem preferred_provinces_roundtrip_witness :
    fetchProvinces (submitProvinces [['ت', 'ه'], ['ق', 'م']]) =
      [['ت', 'ه'], ['ق', 'م']] :=
  preferred_provinces_roundtrip [['ت', 'ه'], ['ق', 'م']]
    (by decide) (by decide) (by decide)

theorem pageStep_bounds {α : Type} (recs : List α) (p : Nat) (e : PageEvent)
    (h1 : 1 ≤ p) (h2 : p ≤ max (totalPages recs) 1) :
    1 ≤ pageStep recs p e ∧ pageStep recs p e ≤ max (totalPages recs) 1 := by
  have hm1 : totalPages recs ≤ max (totalPages recs) 1 := le_max_left _ _
  have hm2 : 1 ≤ max (totalPages recs) 1 := le_max_right _ _
  cases e with
  | next =>
    simp only [pageStep]
    split <;> omega
  | prev =>
    simp only [pageStep]
    split <;> omega

theorem foldl_pageStep_bounds {α : Type} (recs : List α) (evs : List PageEvent) :
    ∀ p, 1 ≤ p → p ≤ max (totalPages recs) 1 →
      1 ≤ evs.foldl (pageStep recs) p ∧
      evs.foldl (pageStep recs) p ≤ max (totalPages recs) 1 := by
  induction evs with
  | nil => intro p h1 h2; exact ⟨h1, h2⟩
  | cons e es ih =>
    intro p h1 h2
    have hstep := pageStep_bounds recs p e h1 h2
    exact ih (pageStep recs p e) hstep.1 hstep.2

/-- Claim C9: starting from page 1, any sequence of next/previous clicks keeps the
current page between 1 and `max totalPages 1`, and the rendered slice is a
contiguous piece of the fetched list of length at most `JOBS_PER_PAGE`. -/
theorem pagination_invariant {α : Type} (recs : List α) (evs : List PageEvent) :
    1 ≤ evs.foldl (pageStep recs) 1 ∧
    evs.foldl (pageStep recs) 1 ≤ max (totalPages recs) 1 ∧
    (currentJobs recs (evs.foldl (pageStep recs) 1)).length ≤ JOBS_PER_PAGE ∧
    ∃ pre post,
      recs = pre ++ currentJobs recs (evs.foldl (pageStep recs) 1) ++ post := by
  obtain ⟨hb1, hb2⟩ :=
    foldl_pageStep_bounds recs evs 1 (le_refl 1) (le_max_right _ _)
  refine ⟨hb1, hb2, ?_, ?_⟩
  · exact List.length_take_le _ _
  · refine ⟨recs.take ((evs.foldl (pageStep recs) 1 - 1) * JOBS_PER_PAGE),
      (recs.drop ((evs.foldl (pageStep recs) 1 - 1) * JOBS_PER_PAGE)).drop
        JOBS_PER_PAGE, ?_⟩
    unfold currentJobs
    conv_lhs =>
      rw [← List.take_append_drop
            ((evs.foldl (pageStep recs) 1 - 1) * JOBS_PER_PAGE) recs,
          ← List.take_append_drop JOBS_PER_PAGE
            (recs.drop ((evs.foldl (pageStep recs) 1 - 1) * JOBS_PER_PAGE))]
    rw [List.append_assoc]

/-- Claim C7: the Sieve's output is contained in the corpus; the Retriever's
output is contained in the sieved set, has at most 50 elements, and when
the sieved set has fewer than 50 elements the Retriever returns all of it
(reordered by rank). -/
theorem sieve_retrieve_invariants (p : SpecProfile) (corpus : List SpecJob)
    (sim : SpecJob → Rat) :
    sieve p corpus ⊆ corpus ∧
    retrieve sim (sieve p corpus) ⊆ sieve p corpus ∧
    (retrieve sim (sieve p corpus)).length ≤ 50 ∧
    ((sieve p corpus).length < 50 →
      (retrieve sim (sieve p corpus)).Perm (sieve p corpus)) := by
  have hsub : sieve p corpus ⊆ corpus := by
    unfold sieve
    split
    · exact List.filter_subset' _
    · split
      · exact List.filter_subset' _
      · split
        · exact List.filter_subset' _
        · exact List.filter_subset' _
  have hperm := isort_perm (retrieverLe sim) (sieve p corpus)
  refine ⟨hsub, ?_, List.length_take_le _ _, ?_⟩
  · intro x hx
    exact hperm.subset (List.take_subset _ _ hx)
  · intro hlt
    have hlen : (isort (retrieverLe sim) (sieve p corpus)).length ≤ 50 := by
      rw [hperm.length_eq]
      omega
    unfold retrieve
    rw [List.take_of_length_le hlen]
    exact hperm

theorem sieve_retrieve_invariants_witness :
    (sieve exProfile exCorpus).length < 50 ∧
    (retrieve exSim (sieve exProfile exCorpus)).Perm (sieve exProfile exCorpus) :=
  ⟨by decide, (sieve_retrieve_invariants exProfile exCorpus exSim).2.2.2 (by decide)⟩

end Karbin
